import Mathlib

/-!
Verification of the theme-application core of hyprtheme-manager.

Python values are shallowly embedded: dicts become insertion-ordered
association lists with string keys, Python strings become `List Char`
(so that the character-level scanning of `str.replace`, substring tests
and `re.sub` can be modelled exactly), and exceptions become either
`Except` values or explicit boolean outcome flags for the individual
I/O steps of a procedure.  Every definition is translated from the
Python source file named in its doc comment.
-/

set_option autoImplicit false

namespace HyprthemeManager

/-- Python dict lookup `d.get(k)` / `d[k]` on an insertion-ordered
association list: the value stored under the first matching key. -/
def dictGet {α : Type} : List (String × α) → String → Option α
  | [], _ => none
  | kv :: rest, k => if kv.1 = k then some kv.2 else dictGet rest k

/-- Python membership test `k in d`. -/
def dictHasKey {α : Type} (d : List (String × α)) (k : String) : Bool :=
  d.any (fun kv => kv.1 == k)

/-- Python dict assignment `d[k] = v`: overwrite in place when the key is
already present (keeping its position), otherwise append a new entry. -/
def dictSet {α : Type} (d : List (String × α)) (k : String) (v : α) : List (String × α) :=
  if dictHasKey d k then d.map (fun kv => if kv.1 = k then (k, v) else kv) else d ++ [(k, v)]

/-- A Python `Dict[str, str]`. -/
abbrev Dict := List (String × String)

/-- The fixed `standard_colors` literal shared verbatim by
`WallpaperManager._generate_colors_with_pywal` (src/wallpaper_utils.py)
and `ColorManager._set_standard_colors` (src/color_manager.py). -/
def standard_colors : Dict :=
  [("color9", "#ff4444"), ("color10", "#44ff44"), ("color11", "#ffff44"),
   ("color12", "#4444ff"), ("color13", "#ff44ff"), ("color14", "#44ffff"),
   ("color15", "#ffffff")]

/-- The post-processing loop
`for color_key, color_value in standard_colors.items(): colors[color_key] = color_value`
of `WallpaperManager._generate_colors_with_pywal` (src/wallpaper_utils.py). -/
def overrideStandardColors (colors : Dict) : Dict :=
  standard_colors.foldl (fun d kv => dictSet d kv.1 kv.2) colors

/-- `ColorManager._set_standard_colors` (src/color_manager.py): the same
override loop, applied to `self.current_colors`. -/
def set_standard_colors (current_colors : Dict) : Dict :=
  standard_colors.foldl (fun d kv => dictSet d kv.1 kv.2) current_colors

/-- `WallpaperManager._generate_colors_with_pywal` (src/wallpaper_utils.py),
with the two external effects as flags: `walOk` is `wal` exiting with
status 0, `colorsFileExists` is `~/.cache/wal/colors.json` existing
afterwards, and `jsonColors` is the parsed `data.get('colors', {})`.
Both failure branches return `None`; on success the raw slots are
post-processed by the standard-color override loop. -/
def generate_colors_with_pywal (walOk colorsFileExists : Bool) (jsonColors : Dict) :
    Option Dict :=
  if walOk = false then none
  else if colorsFileExists = false then none
  else some (overrideStandardColors jsonColors)

/-- A loaded plugin of `plugin_manager.ThemePlugin` (src/plugin_manager.py):
its `name` property and the outcomes of its three abstract operations.
Each operation is a pure function returning either a boolean result
(`Except.ok`) or a raised exception message (`Except.error`). -/
structure Plugin where
  name : String
  applyTheme : Dict → Except String Bool
  backupConfig : String → Except String Bool
  restoreConfig : String → Except String Bool

/-- The `PluginManager` state (src/plugin_manager.py): the `self.plugins`
dict keyed by plugin name, and the `self.enabled_plugins` name list. -/
structure PluginManager where
  plugins : List (String × Plugin)
  enabled_plugins : List String

/-- `PluginManager.get_enabled_plugins` (src/plugin_manager.py):
`[self.plugins[name] for name in self.enabled_plugins if name in self.plugins]`. -/
def get_enabled_plugins (m : PluginManager) : List Plugin :=
  m.enabled_plugins.filterMap (fun n => dictGet m.plugins n)

/-- The `try/except` body wrapped around one plugin call inside
`apply_themes` / `backup_configs` / `restore_configs`: a raised
exception is recorded as a `False` result. -/
def catchToBool (r : Except String Bool) : Bool :=
  match r with
  | Except.ok b => b
  | Except.error _ => false

/-- The loop shared textually by `PluginManager.apply_themes`,
`backup_configs` and `restore_configs` (src/plugin_manager.py):
`results = {}` then `results[plugin.name] = ...` over the enabled plugins. -/
def runBatch (m : PluginManager) (f : Plugin → Except String Bool) : List (String × Bool) :=
  (get_enabled_plugins m).foldl (fun results p => dictSet results p.name (catchToBool (f p))) []

/-- `PluginManager.apply_themes` (src/plugin_manager.py, lines 191-200). -/
def apply_themes (m : PluginManager) (colors : Dict) : List (String × Bool) :=
  runBatch m (fun p => p.applyTheme colors)

/-- `PluginManager.backup_configs` (src/plugin_manager.py, lines 202-211). -/
def backup_configs (m : PluginManager) (backup_dir : String) : List (String × Bool) :=
  runBatch m (fun p => p.backupConfig backup_dir)

/-- `PluginManager.restore_configs` (src/plugin_manager.py, lines 213-222). -/
def restore_configs (m : PluginManager) (backup_dir : String) : List (String × Bool) :=
  runBatch m (fun p => p.restoreConfig backup_dir)

/-- A cached palette (`Dict[str, str]` of color slots). -/
abbrev Palette := Dict

/-- The in-memory `self.color_cache` dict, keyed by file hash. -/
abbrev ColorCache := List (String × Palette)

/-- The string hashed by `WallpaperManager._get_file_hash`
(src/wallpaper_utils.py, lines 221-224): `f"\x7bfile_path.absolute()\x7d_\x7bfile_path.stat().st_mtime\x7d"`.
The path and the printed modification time are taken as strings; the
`hashlib.md5` step is abstracted as a `hash` function parameter of the
operations below (md5 is treated as collision-free). -/
def file_hash_content (path mtime : String) : String :=
  path ++ "_" ++ mtime

/-- `WallpaperManager.get_wallpaper_colors` (src/wallpaper_utils.py,
lines 255-280): compute the cache key, return the cached palette on a
hit; on a miss run pywal (`pywalResult` is the value
`_generate_colors_with_pywal` would return), cache a non-`None` result
and return it.  The result pairs the returned value with the updated
`self.color_cache`. -/
def get_wallpaper_colors (hash : String → String) (cache : ColorCache)
    (path mtime : String) (pywalResult : Option Palette) : Option Palette × ColorCache :=
  let key := hash (file_hash_content path mtime)
  match dictGet cache key with
  | some colors => (some colors, cache)
  | none =>
    match pywalResult with
    | some colors => (some colors, dictSet cache key colors)
    | none => (none, cache)

/-- The character `\x7b`. -/
def lbrace : Char := Char.ofNat 123

/-- The character `\x7d`. -/
def rbrace : Char := Char.ofNat 125

/-- Python `s.replace(old, new)` on character lists: replace every
non-overlapping occurrence of `old`, scanning left to right.  The
recursion is driven by a fuel counter equal to the length of `s`
(sufficient because at least one character is consumed per step);
the `old ≠ []` guard only rules out the empty pattern, which the
source never passes. -/
def pyReplaceAux (old new : List Char) : Nat → List Char → List Char
  | _, [] => []
  | 0, s => s
  | fuel + 1, c :: rest =>
    if old ≠ [] ∧ old.isPrefixOf (c :: rest) then
      new ++ pyReplaceAux old new fuel (rest.drop (old.length - 1))
    else
      c :: pyReplaceAux old new fuel rest

/-- Python `s.replace(old, new)`. -/
def pyReplace (s old new : List Char) : List Char :=
  pyReplaceAux old new s.length s

/-- The placeholder text `"\x7b\x7b" ++ key ++ "\x7d\x7d"` built by the
f-strings of `render_template`. -/
def braced (key : List Char) : List Char :=
  lbrace :: lbrace :: (key ++ [rbrace, rbrace])

/-- `template_manager.render_template` (src/template_manager.py,
lines 21-31).  `colors` is the parsed pywal JSON, a dict of sections;
the subscript accesses `colors['colors']` and `colors['special']` raise
`KeyError` when the section is absent, modelled as `none`.  Slots
`color0..color15` and then `background`/`foreground`/`cursor` are
replaced by `section.get(key, '')` — the empty string when missing. -/
def render_template (template : List Char) (colors : List (String × Dict)) :
    Option (List Char) :=
  if template = [] ∨ colors = [] then some template
  else
    match dictGet colors "colors" with
    | none => none
    | some cmap =>
      let t1 := (List.range 16).foldl
        (fun t i =>
          let key := "color" ++ toString i
          pyReplace t (braced key.data) ((dictGet cmap key).getD "").data)
        template
      match dictGet colors "special" with
      | none => none
      | some smap =>
        some (["background", "foreground", "cursor"].foldl
          (fun t key => pyReplace t (braced key.data) ((dictGet smap key).getD "").data)
          t1)

/-- A `\w` word character of the pattern `r'\x5c\x7b\x5c\x7b(\w+)\x5c\x7d\x5c\x7d'`. -/
def isWordChar (c : Char) : Bool :=
  c.isAlphanum || c = Char.ofNat 95

/-- The scan of `re.sub(r'...', replace_var, template)` inside
`TemplatePlugin._substitute_template` (src/theme_plugins.py, lines
120-135): at each position try to match two opening braces, a nonempty
run of word characters and two closing braces; on a match emit the
looked-up value, or the whole match verbatim when the identifier has no
entry (`template_vars.get(var_name, match.group(0))`), and continue
after the match; otherwise copy one character and continue.  Fuel is
the length of the scanned text (at least one character is consumed per
step). -/
def reSubAux (vars : Dict) : Nat → List Char → List Char
  | _, [] => []
  | 0, s => s
  | fuel + 1, c :: rest =>
    if c = lbrace then
      match rest with
      | [] => [c]
      | c2 :: rest2 =>
        if c2 = lbrace then
          let w := rest2.takeWhile isWordChar
          if w ≠ [] ∧ (rest2.drop w.length).take 2 = [rbrace, rbrace] then
            (match dictGet vars (String.mk w) with
             | some v => v.data
             | none => braced w) ++ reSubAux vars fuel ((rest2.drop w.length).drop 2)
          else
            c :: reSubAux vars fuel rest
        else
          c :: reSubAux vars fuel rest
    else
      c :: reSubAux vars fuel rest

/-- The full `re.sub` call. -/
def reSub (vars : Dict) (template : List Char) : List Char :=
  reSubAux vars template.length template

/-- The `template_vars` dict of `TemplatePlugin._substitute_template`:
a copy of `colors` updated with the semantic aliases `background`
(from `color0`, default `#000000`), `foreground` and `cursor` (from
`color7`, default `#ffffff`). -/
def substituteTemplateVars (colors : Dict) : Dict :=
  dictSet
    (dictSet
      (dictSet colors "background" ((dictGet colors "color0").getD "#000000"))
      "foreground" ((dictGet colors "color7").getD "#ffffff"))
    "cursor" ((dictGet colors "color7").getD "#ffffff")

/-- `TemplatePlugin._substitute_template` (src/theme_plugins.py,
lines 120-135). -/
def substitute_template (template : List Char) (colors : Dict) : List Char :=
  reSub (substituteTemplateVars colors) template

/-- The `include_line = "include pywal.conf"` of
`KittyPlugin._update_kitty_config` (src/plugins/kitty_plugin.py). -/
def include_line : List Char := "include pywal.conf".data

/-- The text appended when the include line is missing:
`f"\n# Pywal colors\n\x7binclude_line\x7d\n"`. -/
def kittyAppendText : List Char := "\n# Pywal colors\ninclude pywal.conf\n".data

/-- Python substring test `pat in s` (checked at every start position). -/
def containsSub (pat : List Char) : List Char → Bool
  | [] => pat.isPrefixOf ([] : List Char)
  | c :: rest => pat.isPrefixOf (c :: rest) || containsSub pat rest

/-- The number of start positions at which `pat` occurs in `s`. -/
def countOccs (pat : List Char) : List Char → Nat
  | [] => if pat.isPrefixOf ([] : List Char) then 1 else 0
  | c :: rest => (if pat.isPrefixOf (c :: rest) then 1 else 0) + countOccs pat rest

/-- `KittyPlugin._update_kitty_config` (src/plugins/kitty_plugin.py,
lines 95-114) acting on the content of `~/.config/kitty/kitty.conf`
(`none` when the file does not exist): when the file exists and already
contains the include line, return unchanged; otherwise append (opening
in mode `'a'` creates the file when missing). -/
def update_kitty_config : Option (List Char) → List Char
  | some content =>
    if containsSub include_line content then content else content ++ kittyAppendText
  | none => kittyAppendText

/-- Filesystem steps performed by the plugin procedures. -/
inductive FsEvent where
  | mkdirs
  | writeFile
  | backupCopy
  | includeUpdate
  | reloadApp
  deriving DecidableEq, Repr

/-- `template_manager.write_config` (src/template_manager.py, lines
33-39): `os.makedirs(..., exist_ok=True)` then `open(path, 'w').write`,
the whole body inside a `try/except` that only prints an error message
and returns normally.  `mkdirOk`/`writeOk` say whether each step
raised; the returned value is the list of steps that completed — the
function itself never propagates an exception. -/
def write_config (mkdirOk writeOk : Bool) : List FsEvent :=
  if mkdirOk = false then []
  else if writeOk = false then [FsEvent.mkdirs]
  else [FsEvent.mkdirs, FsEvent.writeFile]

/-- `KittyPlugin.apply_theme` (src/plugins/kitty_plugin.py, lines
42-67): read the template (missing → `False`), render it (a raised
`KeyError` is caught by the outer handler → `False`), call
`write_config`, update the main config, reload, return `True`.  The
`_configExists` flag is accepted but never consulted: this
`apply_theme` performs no backup of any existing config. -/
def kitty_apply_theme (_configExists templateExists renderOk mkdirOk writeOk : Bool) :
    List FsEvent × Bool :=
  if templateExists = false then ([], false)
  else if renderOk = false then ([], false)
  else (write_config mkdirOk writeOk ++ [FsEvent.includeUpdate, FsEvent.reloadApp], true)

/-- `TemplatePlugin.apply_theme` (src/theme_plugins.py, lines 86-118):
missing template → `False`; read the template (an exception is caught
by the outer handler → `False`); call `backup_config`, which copies the
existing config when present (`backupCopyOk` says whether the `copy2`
raised — a failure is swallowed inside `backup_config` and the apply
continues); create the parent directory and write the new config (an
exception in either step reaches the outer handler → `False`); restart
and return `True`. -/
def template_apply_theme
    (templateExists readOk configExists backupCopyOk mkdirOk writeOk : Bool) :
    List FsEvent × Bool :=
  if templateExists = false then ([], false)
  else if readOk = false then ([], false)
  else
    let bk := if configExists && backupCopyOk then [FsEvent.backupCopy] else []
    if mkdirOk = false then (bk, false)
    else if writeOk = false then (bk ++ [FsEvent.mkdirs], false)
    else (bk ++ [FsEvent.mkdirs, FsEvent.writeFile, FsEvent.reloadApp], true)

/-- `ThemePlugin.backup_config` (src/theme_plugins.py, lines 38-49):
`True` when the config file does not exist ("Nothing to backup"),
otherwise the success of the `copy2`. -/
def theme_plugin_backup_config (configExists copyOk : Bool) : Bool :=
  if configExists = false then true else copyOk

/-- `KittyPlugin.backup_config` (src/plugins/kitty_plugin.py, lines
69-80): when the config exists, `makedirs` + `copy2` and `True` (any
exception → `False`); when it does not exist, fall through to
`return False`. -/
def kitty_backup_config (configExists mkdirOk copyOk : Bool) : Bool :=
  if configExists = true then mkdirOk && copyOk else false

/-- `WaybarPlugin.backup_config` (src/plugins/waybar_plugin.py, lines
72-83): the same structure as the Kitty variant. -/
def waybar_backup_config (configExists mkdirOk copyOk : Bool) : Bool :=
  if configExists = true then mkdirOk && copyOk else false

/-- A concrete palette used by the worked examples. -/
def examplePalette : Dict := [("color0", "#112233")]

/-- A concrete parsed pywal JSON with only `color0` generated. -/
def examplePywal : List (String × Dict) := [("colors", examplePalette), ("special", [])]

/-- The template of the spec's worked example. -/
def exampleTemplate : List Char := braced "color0".data ++ (" ".data ++ braced "unknownSlot".data)

/-- The expected rendering of the worked example. -/
def exampleOutput : List Char := "#112233".data ++ (" ".data ++ braced "unknownSlot".data)

/-- A plugin whose operations all succeed with `True`. -/
def okPlugin (n : String) : Plugin :=
  ⟨n, fun _ => Except.ok true, fun _ => Except.ok true, fun _ => Except.ok true⟩

/-- A plugin whose operations all raise. -/
def raisingPlugin (n : String) : Plugin :=
  ⟨n, fun _ => Except.error "boom", fun _ => Except.error "boom",
   fun _ => Except.error "boom"⟩

/-- A manager with three loaded plugins, the second of which raises,
plus an enabled name with no loaded plugin. -/
def exampleManager : PluginManager :=
  ⟨[("p1", okPlugin "p1"), ("p2", raisingPlugin "p2"), ("p3", okPlugin "p3")],
   ["p1", "p2", "p3", "ghost"]⟩

/-- A one-entry color cache for the cache witnesses. -/
def exampleCache : ColorCache := [(file_hash_content "/w.png" "100.0", examplePalette)]

/-!  Helper lemmas about the dict embedding. -/

theorem dictGet_map_set_of_hasKey {α : Type} {d : List (String × α)} {k : String} (v : α)
    (h : dictHasKey d k = true) :
    dictGet (d.map (fun kv => if kv.1 = k then (k, v) else kv)) k = some v := by
  induction d with
  | nil => simp [dictHasKey] at h
  | cons kv rest ih =>
    by_cases hk : kv.1 = k
    · simp [dictGet, hk]
    · have h2 : dictHasKey rest k = true := by
        simp only [dictHasKey, List.any_cons, Bool.or_eq_true, beq_iff_eq] at h
        rcases h with h | h
        · exact absurd h hk
        · simpa [dictHasKey] using h
      simp [dictGet, hk, ih h2]

theorem dictGet_eq_none_of_hasKey_false {α : Type} {d : List (String × α)} {k : String}
    (h : dictHasKey d k = false) : dictGet d k = none := by
  induction d with
  | nil => rfl
  | cons kv rest ih =>
    simp only [dictHasKey, List.any_cons, Bool.or_eq_false_iff, beq_eq_false_iff_ne] at h
    have h2 : dictHasKey rest k = false := by simpa [dictHasKey] using h.2
    simp [dictGet, h.1, ih h2]

theorem dictGet_append {α : Type} (d e : List (String × α)) (k : String) :
    dictGet (d ++ e) k =
      match dictGet d k with
      | some v => some v
      | none => dictGet e k := by
  induction d with
  | nil => simp [dictGet]
  | cons kv rest ih =>
    by_cases hk : kv.1 = k
    · simp [dictGet, hk]
    · simp [dictGet, hk, ih]

theorem dictGet_dictSet_self {α : Type} (d : List (String × α)) (k : String) (v : α) :
    dictGet (dictSet d k v) k = some v := by
  unfold dictSet
  by_cases h : dictHasKey d k
  · simp only [h, if_true]
    exact dictGet_map_set_of_hasKey v h
  · simp only [Bool.not_eq_true] at h
    simp only [h, Bool.false_eq_true, if_false]
    rw [dictGet_append, dictGet_eq_none_of_hasKey_false h]
    simp [dictGet]

theorem dictGet_map_set_ne {α : Type} {d : List (String × α)} {k k' : String} (v : α)
    (hne : k' ≠ k) :
    dictGet (d.map (fun kv => if kv.1 = k then (k, v) else kv)) k' = dictGet d k' := by
  induction d with
  | nil => rfl
  | cons kv rest ih =>
    have h2 : ¬ k = k' := fun h => hne h.symm
    by_cases hk : kv.1 = k
    · simp [dictGet, hk, h2, ih]
    · simp [dictGet, hk, ih]

theorem dictGet_dictSet_ne {α : Type} (d : List (String × α)) {k k' : String} (v : α)
    (hne : k' ≠ k) : dictGet (dictSet d k v) k' = dictGet d k' := by
  unfold dictSet
  by_cases h : dictHasKey d k
  · simp only [h, if_true]
    exact dictGet_map_set_ne v hne
  · simp only [Bool.not_eq_true] at h
    simp only [h, Bool.false_eq_true, if_false]
    rw [dictGet_append]
    have h2 : ¬ k = k' := fun h => hne h.symm
    have hv : dictGet [(k, v)] k' = none := by simp [dictGet, h2]
    cases hd : dictGet d k' <;> simp [hv]

theorem dictGet_mem {α : Type} {d : List (String × α)} {k : String} {v : α}
    (h : dictGet d k = some v) : (k, v) ∈ d := by
  induction d with
  | nil => simp [dictGet] at h
  | cons kv rest ih =>
    obtain ⟨a, b⟩ := kv
    by_cases hk : a = k
    · have hd : dictGet ((a, b) :: rest) k = some b := by
        show (if (a, b).1 = k then some (a, b).2 else dictGet rest k) = some b
        rw [if_pos hk]
      rw [hd] at h
      have hb : b = v := Option.some.inj h
      subst hk hb
      exact List.mem_cons_self _ _
    · have hd : dictGet ((a, b) :: rest) k = dictGet rest k := by
        show (if (a, b).1 = k then some (a, b).2 else dictGet rest k) = _
        rw [if_neg hk]
      rw [hd] at h
      exact List.mem_cons_of_mem _ (ih h)

theorem dictGet_eq_none_iff {α : Type} (d : List (String × α)) (k : String) :
    dictGet d k = none ↔ k ∉ d.map Prod.fst := by
  induction d with
  | nil => simp [dictGet]
  | cons kv rest ih =>
    by_cases hk : kv.1 = k
    · simp [dictGet, hk]
    · have h2 : ¬ k = kv.1 := fun h => hk h.symm
      simp [dictGet, hk, ih, h2]

theorem dictHasKey_eq_false_iff {α : Type} (d : List (String × α)) (k : String) :
    dictHasKey d k = false ↔ ∀ kv ∈ d, kv.1 ≠ k := by
  simp [dictHasKey, List.any_eq_false]

/-!  Lemmas about the shared `results[key q] = val q` fold. -/

theorem dictGet_foldl_set_of_no_key {α β : Type} (key : β → String) (val : β → α)
    (l : List β) (init : List (String × α)) (k : String) (h : ∀ q ∈ l, key q ≠ k) :
    dictGet (l.foldl (fun d q => dictSet d (key q) (val q)) init) k = dictGet init k := by
  induction l generalizing init with
  | nil => rfl
  | cons a t ih =>
    simp only [List.foldl_cons]
    rw [ih _ (fun q hq => h q (List.mem_cons_of_mem _ hq))]
    exact dictGet_dictSet_ne init (val a) (fun he => h a (List.mem_cons_self _ _) he.symm)

theorem dictGet_foldl_set_mem {α β : Type} (key : β → String) (val : β → α)
    (l : List β) (init : List (String × α)) (hnd : (l.map key).Nodup)
    (p : β) (hp : p ∈ l) :
    dictGet (l.foldl (fun d q => dictSet d (key q) (val q)) init) (key p) = some (val p) := by
  induction l generalizing init with
  | nil => simp at hp
  | cons a t ih =>
    simp only [List.map_cons, List.nodup_cons] at hnd
    rcases List.mem_cons.mp hp with h | h
    · subst h
      simp only [List.foldl_cons]
      rw [dictGet_foldl_set_of_no_key key val t _ (key p)
        (fun q hq he => hnd.1 (he ▸ List.mem_map_of_mem key hq))]
      exact dictGet_dictSet_self init (key p) (val p)
    · exact ih _ hnd.2 h

theorem dictSet_eq_append_of_no_key {α : Type} (d : List (String × α)) (k : String) (v : α)
    (h : dictHasKey d k = false) : dictSet d k v = d ++ [(k, v)] := by
  simp [dictSet, h]

theorem dictHasKey_append {α : Type} (d e : List (String × α)) (k : String) :
    dictHasKey (d ++ e) k = (dictHasKey d k || dictHasKey e k) := by
  simp [dictHasKey, List.any_append]

theorem map_fst_foldl_set {α β : Type} (key : β → String) (val : β → α)
    (l : List β) (init : List (String × α)) (hnd : (l.map key).Nodup)
    (hdisj : ∀ q ∈ l, dictHasKey init (key q) = false) :
    (l.foldl (fun d q => dictSet d (key q) (val q)) init).map Prod.fst
      = init.map Prod.fst ++ l.map key := by
  induction l generalizing init with
  | nil => simp
  | cons a t ih =>
    simp only [List.map_cons, List.nodup_cons] at hnd
    simp only [List.foldl_cons]
    rw [dictSet_eq_append_of_no_key init (key a) (val a) (hdisj a (List.mem_cons_self _ _))]
    have hdisj2 : ∀ q ∈ t, dictHasKey (init ++ [(key a, val a)]) (key q) = false := by
      intro q hq
      rw [dictHasKey_append]
      have h1 : dictHasKey init (key q) = false := hdisj q (List.mem_cons_of_mem _ hq)
      have h2 : dictHasKey [(key a, val a)] (key q) = false := by
        rw [dictHasKey_eq_false_iff]
        intro kv hkv
        simp only [List.mem_singleton] at hkv
        subst hkv
        intro he
        have he2 : key a = key q := he
        exact hnd.1 (by rw [he2]; exact List.mem_map_of_mem key hq)
      rw [h1, h2]
      rfl
    rw [ih _ hnd.2 hdisj2]
    simp

/-!  Standard-color override (claim C2). -/

theorem overrideStandardColors_lookup (d : Dict) :
    ∀ kv ∈ standard_colors, dictGet (overrideStandardColors d) kv.1 = some kv.2 := by
  intro kv hkv
  exact dictGet_foldl_set_mem Prod.fst Prod.snd standard_colors d (by decide) kv hkv

theorem set_standard_colors_lookup (d : Dict) :
    ∀ kv ∈ standard_colors, dictGet (set_standard_colors d) kv.1 = some kv.2 := by
  intro kv hkv
  exact dictGet_foldl_set_mem Prod.fst Prod.snd standard_colors d (by decide) kv hkv

/-- C2: every palette successfully produced by
`_generate_colors_with_pywal` maps `color9..color15` to exactly the
fixed standard values `#ff4444 #44ff44 #ffff44 #4444ff #ff44ff #44ffff
#ffffff` (the entries of `standard_colors`), regardless of what the
external tool emitted for those slots; `ColorManager._set_standard_colors`
enforces the same values on any `current_colors` dict. -/
theorem generated_palette_has_standard_bright_colors
    (walOk colorsFileExists : Bool) (jsonColors palette : Dict)
    (h : generate_colors_with_pywal walOk colorsFileExists jsonColors = some palette) :
    ∀ kv ∈ standard_colors,
      dictGet palette kv.1 = some kv.2
      ∧ dictGet (set_standard_colors jsonColors) kv.1 = some kv.2 := by
  intro kv hkv
  have hp : overrideStandardColors jsonColors = palette := by
    cases walOk with
    | false => simp [generate_colors_with_pywal] at h
    | true =>
      cases colorsFileExists with
      | false => simp [generate_colors_with_pywal] at h
      | true =>
        simpa [generate_colors_with_pywal] using h
  rw [← hp]
  exact ⟨overrideStandardColors_lookup jsonColors kv hkv,
    set_standard_colors_lookup jsonColors kv hkv⟩

/-- Witness for C2: a run whose raw palette is empty still carries the
fixed bright slots. -/
theorem generated_palette_has_standard_bright_colors_witness :
    dictGet (overrideStandardColors []) "color9" = some "#ff4444"
    ∧ dictGet (set_standard_colors []) "color15" = some "#ffffff" := by
  have h := generated_palette_has_standard_bright_colors true true []
    (overrideStandardColors []) rfl
  exact ⟨(h ("color9", "#ff4444") (by decide)).1, (h ("color15", "#ffffff") (by decide)).2⟩

/-!  Failure isolation in the plugin batch loop (claims C1 and C10). -/

/-- C1: for every colors dict and manager state (with distinctly named
enabled plugins), `apply_themes` returns a result map holding an entry
for each enabled-and-loaded plugin — so plugins after a failing one are
still attempted — and any plugin whose `apply_theme` raises is recorded
as a `false` entry; `apply_themes` is a total function, so no exception
propagates out of it. -/
theorem apply_themes_isolates_failures (m : PluginManager) (colors : Dict)
    (hnd : ((get_enabled_plugins m).map Plugin.name).Nodup) :
    ∀ p ∈ get_enabled_plugins m,
      dictGet (apply_themes m colors) p.name = some (catchToBool (p.applyTheme colors))
      ∧ (∀ msg, p.applyTheme colors = Except.error msg →
          dictGet (apply_themes m colors) p.name = some false) := by
  intro p hp
  have h1 : dictGet (apply_themes m colors) p.name
      = some (catchToBool (p.applyTheme colors)) :=
    dictGet_foldl_set_mem Plugin.name (fun q => catchToBool (q.applyTheme colors))
      (get_enabled_plugins m) [] hnd p hp
  refine ⟨h1, ?_⟩
  intro msg hmsg
  rw [h1, hmsg]
  rfl

/-- Witness for C1: three enabled plugins with the second raising yield
the result map of the spec's partial-failure test. -/
theorem apply_themes_isolates_failures_witness :
    dictGet (apply_themes exampleManager []) "p1" = some true
    ∧ dictGet (apply_themes exampleManager []) "p2" = some false
    ∧ dictGet (apply_themes exampleManager []) "p3" = some true := by
  have hlist : get_enabled_plugins exampleManager
      = [okPlugin "p1", raisingPlugin "p2", okPlugin "p3"] := rfl
  have h := apply_themes_isolates_failures exampleManager [] (by rw [hlist]; decide)
  refine ⟨?_, ?_, ?_⟩
  · exact (h (okPlugin "p1") (by rw [hlist]; exact List.mem_cons_self _ _)).1
  · exact (h (raisingPlugin "p2")
      (by rw [hlist]; exact List.mem_cons_of_mem _ (List.mem_cons_self _ _))).2 "boom" rfl
  · exact (h (okPlugin "p3")
      (by
        rw [hlist]
        exact List.mem_cons_of_mem _ (List.mem_cons_of_mem _ (List.mem_cons_self _ _)))).1

theorem map_name_filterMap (plugins : List (String × Plugin))
    (hwf : ∀ kv ∈ plugins, (kv.2).name = kv.1) (ns : List String) :
    (ns.filterMap (fun n => dictGet plugins n)).map Plugin.name
      = ns.filter (fun n => (dictGet plugins n).isSome) := by
  induction ns with
  | nil => rfl
  | cons n t ih =>
    cases h : dictGet plugins n with
    | none => simp [List.filterMap_cons, h, List.filter_cons, ih]
    | some p =>
      have hn : p.name = n := hwf (n, p) (dictGet_mem h)
      simp [List.filterMap_cons, h, List.filter_cons, hn, ih]

theorem runBatch_keys (m : PluginManager) (f : Plugin → Except String Bool)
    (hwf : ∀ kv ∈ m.plugins, (kv.2).name = kv.1) (hnd : m.enabled_plugins.Nodup) :
    (runBatch m f).map Prod.fst
      = m.enabled_plugins.filter (fun n => (dictGet m.plugins n).isSome) := by
  have hnames : (get_enabled_plugins m).map Plugin.name
      = m.enabled_plugins.filter (fun n => (dictGet m.plugins n).isSome) :=
    map_name_filterMap m.plugins hwf m.enabled_plugins
  have hkeys : ((get_enabled_plugins m).map Plugin.name).Nodup := by
    rw [hnames]
    exact hnd.filter _
  have h := map_fst_foldl_set Plugin.name (fun q => catchToBool (f q))
    (get_enabled_plugins m) [] hkeys (fun q _ => rfl)
  calc (runBatch m f).map Prod.fst
      = ([] : List (String × Bool)).map Prod.fst ++ (get_enabled_plugins m).map Plugin.name :=
        h
    _ = m.enabled_plugins.filter (fun n => (dictGet m.plugins n).isSome) := by
        rw [hnames]; rfl

theorem runBatch_skips_unloaded (m : PluginManager) (f : Plugin → Except String Bool)
    (hwf : ∀ kv ∈ m.plugins, (kv.2).name = kv.1) (hnd : m.enabled_plugins.Nodup)
    (n : String) (hn : dictGet m.plugins n = none) : dictGet (runBatch m f) n = none := by
  rw [dictGet_eq_none_iff, runBatch_keys m f hwf hnd]
  intro hmem
  have h2 := (List.mem_filter.mp hmem).2
  rw [hn] at h2
  simp at h2

/-- C10: under a well-keyed plugin dict (each plugin stored under its
own name) and duplicate-free enablement list, the three batch
operations iterate exactly the enabled names that are loaded, in
enablement-list order — their result keys equal the enablement list
filtered to loaded names — and an enabled name with no loaded plugin is
silently skipped: it produces no entry in any of the three result maps
and the operations still return normally. -/
theorem batch_ops_iterate_enabled_loaded (m : PluginManager) (colors : Dict)
    (backup_dir : String)
    (hwf : ∀ kv ∈ m.plugins, (kv.2).name = kv.1)
    (hnd : m.enabled_plugins.Nodup) :
    ((get_enabled_plugins m).map Plugin.name
        = m.enabled_plugins.filter (fun n => (dictGet m.plugins n).isSome))
    ∧ ((apply_themes m colors).map Prod.fst
        = m.enabled_plugins.filter (fun n => (dictGet m.plugins n).isSome))
    ∧ ((backup_configs m backup_dir).map Prod.fst
        = m.enabled_plugins.filter (fun n => (dictGet m.plugins n).isSome))
    ∧ ((restore_configs m backup_dir).map Prod.fst
        = m.enabled_plugins.filter (fun n => (dictGet m.plugins n).isSome))
    ∧ (∀ n ∈ m.enabled_plugins, dictGet m.plugins n = none →
        dictGet (apply_themes m colors) n = none
        ∧ dictGet (backup_configs m backup_dir) n = none
        ∧ dictGet (restore_configs m backup_dir) n = none) := by
  refine ⟨map_name_filterMap m.plugins hwf m.enabled_plugins,
    runBatch_keys m _ hwf hnd, runBatch_keys m _ hwf hnd, runBatch_keys m _ hwf hnd,
    ?_⟩
  intro n _ hn
  exact ⟨runBatch_skips_unloaded m _ hwf hnd n hn,
    runBatch_skips_unloaded m _ hwf hnd n hn,
    runBatch_skips_unloaded m _ hwf hnd n hn⟩

/-- Witness for C10: the example manager enables `ghost`, which is not
loaded; the result keys are exactly the three loaded names and `ghost`
has no entry. -/
theorem batch_ops_iterate_enabled_loaded_witness :
    (apply_themes exampleManager []).map Prod.fst = ["p1", "p2", "p3"]
    ∧ dictGet (apply_themes exampleManager []) "ghost" = none := by
  have hwf : ∀ kv ∈ exampleManager.plugins, (kv.2).name = kv.1 := by
    intro kv hkv
    simp only [exampleManager, List.mem_cons, List.not_mem_nil, or_false] at hkv
    rcases hkv with h | h | h <;> subst h <;> rfl
  have h := batch_ops_iterate_enabled_loaded exampleManager [] "/backup" hwf (by decide)
  refine ⟨h.2.1.trans (by decide), (h.2.2.2.2 "ghost" (by decide) rfl).1⟩

/-!  The wallpaper color cache (claims C4 and C5). -/

theorem string_data_inj {s t : String} (h : s.data = t.data) : s = t := by
  cases s
  cases t
  exact congrArg String.mk h

theorem file_hash_content_inj {path m1 m2 : String}
    (h : file_hash_content path m1 = file_hash_content path m2) : m1 = m2 := by
  unfold file_hash_content at h
  have hd := congrArg String.data h
  simp only [String.data_append, List.append_assoc] at hd
  have h1 := List.append_cancel_left hd
  have h2 := List.append_cancel_left h1
  exact string_data_inj h2

/-- C4: for any collision-free hash (the md5 abstraction), a lookup of a
(path, mtime) pair whose key is cached returns exactly the cached
palette with the cache unchanged; a generating call stores the palette
under the pair's key so that the identical pair hits it; the same path
with a changed mtime yields a different cache key; and a lookup under a
changed mtime whose new key is not cached does not return any stale
cached palette — it returns exactly what the generator produced. -/
theorem wallpaper_color_cache_correct (hash : String → String) (cache : ColorCache)
    (path m1 m2 : String) (P : Palette) (pw : Option Palette)
    (hinj : Function.Injective hash) :
    (dictGet cache (hash (file_hash_content path m1)) = some P →
      get_wallpaper_colors hash cache path m1 pw = (some P, cache))
    ∧ (dictGet cache (hash (file_hash_content path m1)) = none →
      dictGet (get_wallpaper_colors hash cache path m1 (some P)).2
          (hash (file_hash_content path m1)) = some P)
    ∧ (m1 ≠ m2 → hash (file_hash_content path m1) ≠ hash (file_hash_content path m2))
    ∧ (m1 ≠ m2 → dictGet cache (hash (file_hash_content path m2)) = none →
      (get_wallpaper_colors hash cache path m2 pw).1 = pw) := by
  refine ⟨?_, ?_, ?_, ?_⟩
  · intro h
    simp [get_wallpaper_colors, h]
  · intro h
    simp only [get_wallpaper_colors, h]
    exact dictGet_dictSet_self cache _ P
  · intro hne heq
    exact hne (file_hash_content_inj (hinj heq))
  · intro _ h
    cases pw with
    | none => simp [get_wallpaper_colors, h]
    | some colors => simp [get_wallpaper_colors, h]

/-- Witness for C4 with the identity as the collision-free hash and a
one-entry cache. -/
theorem wallpaper_color_cache_correct_witness :
    get_wallpaper_colors id exampleCache "/w.png" "100.0" none
        = (some examplePalette, exampleCache)
    ∧ id (file_hash_content "/w.png" "100.0") ≠ id (file_hash_content "/w.png" "200.0")
    ∧ (get_wallpaper_colors id exampleCache "/w.png" "200.0" none).1 = none := by
  have h := wallpaper_color_cache_correct id exampleCache "/w.png" "100.0" "200.0"
    examplePalette none (fun a b hab => hab)
  exact ⟨h.1 (by decide), h.2.2.1 (by decide), h.2.2.2 (by decide) (by decide)⟩

/-- C5 counterexample: with an empty cache (so the lookup misses),
`get_wallpaper_colors` does not return a miss sentinel — it returns the
palette produced by the pywal generation it performed itself, and it
caches it. -/
theorem cache_miss_returns_generated_palette :
    (get_wallpaper_colors id [] "/w.png" "100.0" (some examplePalette)).1
        = some examplePalette
    ∧ (get_wallpaper_colors id [] "/w.png" "100.0" (some examplePalette)).1 ≠ none
    ∧ (get_wallpaper_colors id [] "/w.png" "100.0" (some examplePalette)).2 ≠ [] := by
  refine ⟨rfl, ?_, ?_⟩ <;> decide

/-- C5 as amended: on a cache miss `get_wallpaper_colors` itself invokes
the pywal generation, returns exactly its result, and caches a
successful result under the computed key; it returns `none` (not a
bare miss sentinel to be filled by the caller) only when that
generation fails. -/
theorem cache_miss_generates_inline (hash : String → String) (cache : ColorCache)
    (path mtime : String) (pw : Option Palette)
    (hmiss : dictGet cache (hash (file_hash_content path mtime)) = none) :
    get_wallpaper_colors hash cache path mtime pw =
      (pw, match pw with
        | some colors => dictSet cache (hash (file_hash_content path mtime)) colors
        | none => cache) := by
  cases pw with
  | none => simp [get_wallpaper_colors, hmiss]
  | some colors => simp [get_wallpaper_colors, hmiss]

/-- Witness for the amended C5 at a concrete miss. -/
theorem cache_miss_generates_inline_witness :
    get_wallpaper_colors id [] "/w.png" "100.0" (some examplePalette)
      = (some examplePalette,
         dictSet [] (id (file_hash_content "/w.png" "100.0")) examplePalette) :=
  cache_miss_generates_inline id [] "/w.png" "100.0" (some examplePalette) rfl

/-!  Backup behaviour when the config file is missing (claim C6). -/

/-- C6 counterexample: the standalone Kitty and Waybar plugins return
`False` from `backup_config` when the config file does not exist, even
though every copy step would succeed — the claim predicted `true`. -/
theorem backup_missing_config_returns_false :
    kitty_backup_config false true true = false
    ∧ ¬ kitty_backup_config false true true = true
    ∧ waybar_backup_config false true true = false := by
  decide

/-- C6 as amended: only the base `ThemePlugin.backup_config` of
theme_plugins.py succeeds trivially when the config file does not
exist; the standalone Kitty and Waybar plugins (src/plugins) return
`False` in that case, whatever the outcome of their copy steps would
have been. -/
theorem backup_config_missing_file (copyOk mkdirOk copyOk2 : Bool) :
    theme_plugin_backup_config false copyOk = true
    ∧ kitty_backup_config false mkdirOk copyOk2 = false
    ∧ waybar_backup_config false mkdirOk copyOk2 = false := by
  cases copyOk <;> cases mkdirOk <;> cases copyOk2 <;> decide

/-!  Backup-before-write ordering inside apply_theme (claim C8). -/

/-- C8 counterexample: `KittyPlugin.apply_theme` of
src/plugins/kitty_plugin.py, run with an existing config file and every
step succeeding, writes the new config without any prior backup — its
event trace contains the write but no backup copy at all. -/
theorem kitty_apply_writes_without_backup :
    FsEvent.writeFile ∈ (kitty_apply_theme true true true true true).1
    ∧ FsEvent.backupCopy ∉ (kitty_apply_theme true true true true true).1 := by
  decide

/-- C8 as amended: `TemplatePlugin.apply_theme` of theme_plugins.py
calls `backup_config` before writing, so in every execution in which
the config file exists, the backup copy succeeds and the write is
performed, the backup precedes the write in the event trace; the
standalone `KittyPlugin.apply_theme` of src/plugins, by contrast,
performs no backup at all (see the counterexample), and a failed backup
copy does not stop the write. -/
theorem template_apply_backs_up_before_write
    (te ro ce bo mo wo : Bool) (hce : ce = true) (hbo : bo = true)
    (hw : FsEvent.writeFile ∈ (template_apply_theme te ro ce bo mo wo).1) :
    FsEvent.backupCopy ∈ (template_apply_theme te ro ce bo mo wo).1
    ∧ (template_apply_theme te ro ce bo mo wo).1.indexOf FsEvent.backupCopy
        < (template_apply_theme te ro ce bo mo wo).1.indexOf FsEvent.writeFile := by
  subst hce hbo
  revert hw
  cases te <;> cases ro <;> cases mo <;> cases wo <;> decide

/-- Witness for C8 with every step succeeding. -/
theorem template_apply_backs_up_before_write_witness :
    FsEvent.writeFile ∈ (template_apply_theme true true true true true true).1
    ∧ FsEvent.backupCopy ∈ (template_apply_theme true true true true true true).1 := by
  refine ⟨by decide, ?_⟩
  exact (template_apply_backs_up_before_write true true true true true true rfl rfl
    (by decide)).1

/-!  Swallowed write failures (claim C9). -/

/-- C9 counterexample: when the config write raises inside
`write_config`, the src/plugins `KittyPlugin.apply_theme` still returns
`True` — the failed write is not reported as the plugin's failure —
even though no write was performed. -/
theorem failed_write_still_reports_success :
    (kitty_apply_theme true true true true false).2 = true
    ∧ FsEvent.writeFile ∉ (kitty_apply_theme true true true true false).1 := by
  decide

/-- C9 as amended: `write_config` creates the missing parent
directories before the write (every trace that performs the write
performed `mkdirs` first), but on an I/O failure it merely prints and
returns normally — no `WriteError` exists — so the enclosing
`apply_theme` reports success even when the write (or even the
directory creation) failed. -/
theorem write_config_failure_swallowed (ce mo mo2 wo2 : Bool)
    (hw : FsEvent.writeFile ∈ write_config mo2 wo2) :
    ((kitty_apply_theme ce true true mo false).2 = true
      ∧ FsEvent.writeFile ∉ (kitty_apply_theme ce true true mo false).1)
    ∧ write_config mo2 wo2 = [FsEvent.mkdirs, FsEvent.writeFile] := by
  revert hw
  cases ce <;> cases mo <;> cases mo2 <;> cases wo2 <;> decide

/-- Witness for C9 at a concrete failing write. -/
theorem write_config_failure_swallowed_witness :
    FsEvent.writeFile ∈ write_config true true
    ∧ (kitty_apply_theme true true true true false).2 = true
    ∧ write_config true true = [FsEvent.mkdirs, FsEvent.writeFile] := by
  refine ⟨by decide, ?_, ?_⟩
  · exact (write_config_failure_swallowed true true true true (by decide)).1.1
  · exact (write_config_failure_swallowed true true true true (by decide)).2

/-!  Idempotent include-line insertion (claim C7). -/

theorem isPrefixOf_eq_true_iff : ∀ (pat l : List Char),
    pat.isPrefixOf l = true ↔ ∃ t, pat ++ t = l
  | [], l => by simp [List.isPrefixOf]
  | a :: pat, [] => by simp [List.isPrefixOf]
  | a :: pat, b :: l => by
    simp only [List.isPrefixOf, Bool.and_eq_true, beq_iff_eq]
    constructor
    · rintro ⟨rfl, h⟩
      obtain ⟨t, rfl⟩ := (isPrefixOf_eq_true_iff pat l).mp h
      exact ⟨t, rfl⟩
    · rintro ⟨t, ht⟩
      injection ht with h1 h2
      exact ⟨h1, (isPrefixOf_eq_true_iff pat l).mpr ⟨t, h2⟩⟩

theorem mem_of_getElem?_eq_some {l : List Char} {n : Nat} {a : Char}
    (h : l[n]? = some a) : a ∈ l := by
  have hn : n < l.length := by
    by_contra hc
    rw [List.getElem?_eq_none (Nat.le_of_not_lt hc)] at h
    exact Option.noConfusion h
  rw [List.getElem?_eq_getElem hn] at h
  have ha : l[n] = a := Option.some.inj h
  exact ha ▸ l.getElem_mem hn

theorem isPrefixOf_append_nl_false (pat s w' : List Char)
    (hnl : ∀ c ∈ pat, c ≠ '\n')
    (hs : pat.isPrefixOf s = false) :
    pat.isPrefixOf (s ++ '\n' :: w') = false := by
  by_contra hc
  rw [Bool.not_eq_false] at hc
  obtain ⟨t, ht⟩ := (isPrefixOf_eq_true_iff _ _).mp hc
  by_cases hlen : pat.length ≤ s.length
  · have h1 : List.take pat.length (s ++ '\n' :: w') = pat := by
      rw [← ht]
      exact List.take_left pat t
    have h2 : List.take pat.length (s ++ '\n' :: w') = List.take pat.length s := by
      rw [List.take_append_eq_append_take, Nat.sub_eq_zero_of_le hlen]
      simp
    have h3 : pat.isPrefixOf s = true := by
      apply (isPrefixOf_eq_true_iff _ _).mpr
      refine ⟨s.drop pat.length, ?_⟩
      calc pat ++ s.drop pat.length
          = List.take pat.length s ++ s.drop pat.length := by rw [← h2, h1]
        _ = s := List.take_append_drop _ s
    rw [h3] at hs
    exact Bool.noConfusion hs
  · have hlt : s.length < pat.length := Nat.lt_of_not_le hlen
    have hidx : (pat ++ t)[s.length]? = pat[s.length]? := List.getElem?_append_left hlt
    have hidx2 : (s ++ '\n' :: w')[s.length]? = some '\n' := by
      rw [List.getElem?_append_right (Nat.le_refl _), Nat.sub_self]
      simp
    rw [ht, hidx2] at hidx
    exact hnl '\n' (mem_of_getElem?_eq_some hidx.symm) rfl

theorem countOccs_append_no_straddle (pat s w' : List Char)
    (hnl : ∀ c ∈ pat, c ≠ '\n')
    (hs : containsSub pat s = false) :
    countOccs pat (s ++ '\n' :: w') = countOccs pat ('\n' :: w') := by
  induction s with
  | nil => rfl
  | cons a t ih =>
    have hsplit : pat.isPrefixOf (a :: t) = false ∧ containsSub pat t = false := by
      have h := hs
      simp only [containsSub, Bool.or_eq_false_iff] at h
      exact h
    have hpre : pat.isPrefixOf ((a :: t) ++ '\n' :: w') = false :=
      isPrefixOf_append_nl_false pat (a :: t) w' hnl hsplit.1
    calc countOccs pat ((a :: t) ++ '\n' :: w')
        = (if pat.isPrefixOf ((a :: t) ++ '\n' :: w') then 1 else 0)
            + countOccs pat (t ++ '\n' :: w') := rfl
      _ = countOccs pat (t ++ '\n' :: w') := by rw [hpre]; simp
      _ = countOccs pat ('\n' :: w') := ih hsplit.2

theorem containsSub_append_of_right (pat l₁ l₂ : List Char)
    (h : containsSub pat l₂ = true) : containsSub pat (l₁ ++ l₂) = true := by
  induction l₁ with
  | nil => exact h
  | cons c t ih =>
    show (pat.isPrefixOf (c :: (t ++ l₂)) || containsSub pat (t ++ l₂)) = true
    rw [ih, Bool.or_true]

/-- C7 counterexample: a main config that already holds the include
line twice is left unchanged by two theme applications, so the result
holds two occurrences — not exactly one, as the claim quantified over
every starting content. -/
theorem include_twice_stays_twice :
    countOccs include_line
        (update_kitty_config
          (some (update_kitty_config (some (include_line ++ include_line))))) = 2
    ∧ ¬ countOccs include_line
        (update_kitty_config
          (some (update_kitty_config (some (include_line ++ include_line))))) = 1 := by
  decide

/-- C7 as amended: the insertion step of `_update_kitty_config` is
idempotent — the second application never changes the config again —
and whenever the starting content does not already contain the include
line (in particular when the file does not yet exist), applying it
twice results in exactly one occurrence of the line. -/
theorem update_kitty_config_idempotent (content : List Char) :
    update_kitty_config (some (update_kitty_config (some content)))
        = update_kitty_config (some content)
    ∧ (containsSub include_line content = false →
        countOccs include_line
          (update_kitty_config (some (update_kitty_config (some content)))) = 1)
    ∧ countOccs include_line (update_kitty_config (some (update_kitty_config none))) = 1 := by
  have happtext : containsSub include_line kittyAppendText = true := by decide
  have hidem : update_kitty_config (some (update_kitty_config (some content)))
      = update_kitty_config (some content) := by
    cases hc : containsSub include_line content with
    | true => simp [update_kitty_config, hc]
    | false =>
      have h2 : containsSub include_line (content ++ kittyAppendText) = true :=
        containsSub_append_of_right _ _ _ happtext
      simp [update_kitty_config, hc, h2]
  refine ⟨hidem, ?_, ?_⟩
  · intro hc
    rw [hidem]
    have hupd : update_kitty_config (some content) = content ++ kittyAppendText := by
      simp [update_kitty_config, hc]
    rw [hupd]
    have hnl : ∀ c ∈ include_line, c ≠ '\n' := by decide
    have hsplit : kittyAppendText
        = '\n' :: ("# Pywal colors\ninclude pywal.conf\n".data) := by decide
    rw [hsplit, countOccs_append_no_straddle include_line content _ hnl hc]
    decide
  · decide

/-- Witness for C7 starting from empty content. -/
theorem update_kitty_config_idempotent_witness :
    containsSub include_line [] = false
    ∧ countOccs include_line
        (update_kitty_config (some (update_kitty_config (some ([] : List Char))))) = 1 :=
  ⟨by decide, (update_kitty_config_idempotent []).2.1 (by decide)⟩

/-!  Template placeholder substitution (claim C3). -/

theorem takeWhile_all_append (p : Char → Bool) (w l : List Char)
    (h : ∀ c ∈ w, p c = true) : (w ++ l).takeWhile p = w ++ l.takeWhile p := by
  induction w with
  | nil => rfl
  | cons c w ih =>
    have hc : p c = true := h c (List.mem_cons_self _ _)
    show List.takeWhile p (c :: (w ++ l)) = c :: (w ++ l.takeWhile p)
    rw [List.takeWhile_cons_of_pos hc, ih (fun d hd => h d (List.mem_cons_of_mem _ hd))]

theorem reSubAux_braced (vars : Dict) (w : List Char) (fuel : Nat)
    (hw : w ≠ []) (hword : ∀ c ∈ w, isWordChar c = true) :
    reSubAux vars (fuel + 1) (braced w)
      = (match dictGet vars (String.mk w) with
        | some v => v.data
        | none => braced w) := by
  have htk : (w ++ [rbrace, rbrace]).takeWhile isWordChar = w := by
    rw [takeWhile_all_append isWordChar w [rbrace, rbrace] hword]
    have h0 : ([rbrace, rbrace] : List Char).takeWhile isWordChar = [] := by decide
    rw [h0, List.append_nil]
  have hdrop : (w ++ [rbrace, rbrace]).drop w.length = [rbrace, rbrace] :=
    List.drop_left w [rbrace, rbrace]
  have hnil : reSubAux vars fuel ([] : List Char) = [] := by cases fuel <;> rfl
  show reSubAux vars (fuel + 1) (lbrace :: lbrace :: (w ++ [rbrace, rbrace])) = _
  simp only [reSubAux, htk, hdrop, if_true, eq_self_iff_true]
  rw [if_pos ⟨hw, rfl⟩]
  simp only [List.drop_succ_cons, List.drop_nil, hnil, List.append_nil]

theorem reSub_braced (vars : Dict) (w : List Char)
    (hw : w ≠ []) (hword : ∀ c ∈ w, isWordChar c = true) :
    reSub vars (braced w)
      = (match dictGet vars (String.mk w) with
        | some v => v.data
        | none => braced w) := by
  have hlen : (braced w).length = w.length + 3 + 1 := by
    simp only [braced, List.length_cons, List.length_append, List.length_nil]
  show reSubAux vars (braced w).length (braced w) = _
  rw [hlen]
  exact reSubAux_braced vars w (w.length + 3) hw hword

/-- C3 as amended: the `re.sub` scanner of
`TemplatePlugin._substitute_template` substitutes a placeholder whose
identifier has a palette entry with that entry and leaves a placeholder
whose identifier has no entry verbatim — and on the spec's worked
example both renderers produce `#112233 \x7b\x7bunknownSlot\x7d\x7d`;
`template_manager.render_template`, however, leaves only identifiers
outside its fixed recognized list verbatim: a recognized slot such as
`color1` that is missing from the palette is replaced by the empty
string, as the last conjunct records. -/
theorem template_rendering_placeholders (w : List Char) (vars : Dict) (v : String)
    (hw : w ≠ []) (hword : ∀ c ∈ w, isWordChar c = true) :
    (dictGet vars (String.mk w) = none → reSub vars (braced w) = braced w)
    ∧ (dictGet vars (String.mk w) = some v → reSub vars (braced w) = v.data)
    ∧ substitute_template exampleTemplate examplePalette = exampleOutput
    ∧ render_template exampleTemplate examplePywal = some exampleOutput
    ∧ render_template (braced ("color1".data)) examplePywal = some [] := by
  refine ⟨?_, ?_, by decide, by decide, by decide⟩
  · intro h
    rw [reSub_braced vars w hw hword, h]
  · intro h
    rw [reSub_braced vars w hw hword, h]

/-- Witness for C3 at the unknown identifier `zz` with an empty palette. -/
theorem template_rendering_placeholders_witness :
    reSub [] (braced ("zz".data)) = braced ("zz".data) :=
  (template_rendering_placeholders ("zz".data) [] "" (by decide) (by decide)).1 rfl

/-- C3 counterexample: rendering the single placeholder for the
recognized slot `color1` with a palette that has no `color1` entry
yields the empty string under `template_manager.render_template` — the
placeholder is replaced by `''`, not left verbatim as the claim states
for every placeholder without a palette entry. -/
theorem recognized_slot_replaced_by_empty :
    render_template (braced ("color1".data)) examplePywal = some []
    ∧ ¬ render_template (braced ("color1".data)) examplePywal
        = some (braced ("color1".data)) := by
  exact ⟨by decide, by decide⟩

end HyprthemeManager
